import Mathlib

/-
Verification of the asynchronous conversion job lifecycle manager
(src/models/conversion.py, src/routes/conversion.py,
src/services/conversion_service.py).

The embedding models machine state explicitly:
a filesystem is a map from paths to file sizes, the in-memory job
registry (the `conversion_jobs` dict) is an association list, and each
HTTP handler / background task is a state transformer.  The external
converter capability is an oracle: an outcome (reports success, reports
failure, or raises) together with the filesystem it leaves behind.
Operations are taken as atomic steps; timestamps are rational-number
parameters supplied at the points where the code calls time.time().
-/

namespace ConvCore

/-- Job status enumeration, after `ConversionStatus` in src/models/conversion.py. -/
inductive ConversionStatus
  | pending
  | processing
  | completed
  | failed
deriving DecidableEq, Repr

/-- The `.value` string of a `ConversionStatus` member (it is a str Enum). -/
def statusValue : ConversionStatus → String
  | ConversionStatus.pending => "pending"
  | ConversionStatus.processing => "processing"
  | ConversionStatus.completed => "completed"
  | ConversionStatus.failed => "failed"

/-- A status is terminal when it is COMPLETED or FAILED. -/
def terminalStatus (s : ConversionStatus) : Prop :=
  s = ConversionStatus.completed ∨ s = ConversionStatus.failed

/-- Rank of a status in the forward lifecycle order PENDING → PROCESSING → terminal. -/
def statusRank : ConversionStatus → Nat
  | ConversionStatus.pending => 0
  | ConversionStatus.processing => 1
  | ConversionStatus.completed => 2
  | ConversionStatus.failed => 2

/-- Conversion type enumeration, after `ConversionFormat` in src/models/conversion.py. -/
inductive ConversionFormat
  | word_to_pdf
  | pdf_to_word
  | txt_to_pdf
  | image_to_pdf
  | excel_to_pdf
deriving DecidableEq, Repr

/-- Extension whitelist per conversion type, after `ALLOWED_FORMATS`
in src/routes/conversion.py. -/
def ALLOWED_FORMATS : ConversionFormat → List String
  | ConversionFormat.word_to_pdf => ["doc", "docx"]
  | ConversionFormat.pdf_to_word => ["pdf"]
  | ConversionFormat.txt_to_pdf => ["txt"]
  | ConversionFormat.image_to_pdf => ["jpg", "jpeg", "png", "gif", "bmp", "tiff"]
  | ConversionFormat.excel_to_pdf => ["xls", "xlsx", "csv"]

/-- The job record, after the pydantic model `ConversionJob`.
Timestamps are rationals (seconds); sizes are naturals (bytes). -/
structure ConversionJob where
  id : String
  original_filename : String
  converted_filename : String
  from_format : String
  to_format : String
  status : ConversionStatus
  file_size : Nat
  converted_file_size : Option Nat
  conversion_time : Option ℚ
  created_at : ℚ
  completed_at : Option ℚ
  error_message : Option String
  download_url : Option String
  file_path : Option String
  converted_file_path : Option String
deriving DecidableEq, Repr

/-- A filesystem maps a path to the size of the file stored there,
`none` when no file exists at that path. -/
def Fs : Type := String → Option Nat

/-- Write a file of `n` bytes at path `p`. -/
def fsPut (fs : Fs) (p : String) (n : Nat) : Fs :=
  fun q => if q = p then some n else fs q

/-- Remove the file at path `p` (no effect when absent), as `os.remove`
guarded by `os.path.exists` inside `ConversionService.cleanup_file`. -/
def fsDel (fs : Fs) (p : String) : Fs :=
  fun q => if q = p then none else fs q

/-- The in-memory `conversion_jobs` dict: an association list from job id
to job record, newest binding first. -/
def Registry : Type := List (String × ConversionJob)

/-- Dict lookup: first binding for the key wins. -/
def regGet : Registry → String → Option ConversionJob
  | [], _ => none
  | (k, v) :: r, id => if k = id then some v else regGet r id

/-- Dict assignment `conversion_jobs[id] = v`. -/
def regPut (r : Registry) (id : String) (v : ConversionJob) : Registry :=
  (id, v) :: r

/-- Dict deletion `del conversion_jobs[id]`: every binding for the key goes. -/
def regDel (r : Registry) (id : String) : Registry :=
  r.filter (fun kv => kv.1 != id)

/-- HTTP error raised by a route, after fastapi `HTTPException`. -/
structure HTTPError where
  code : Nat
  detail : String
deriving DecidableEq, Repr

/-- Outcome of a route handler: a value or an HTTP error response. -/
inductive Result (α : Type)
  | ok (val : α)
  | err (e : HTTPError)
deriving DecidableEq, Repr

/-- True when a handler outcome is a success response. -/
def resultOk {α : Type} : Result α → Bool
  | Result.ok _ => true
  | Result.err _ => false

/- ### Path handling: pathlib suffix, lower, lstrip -/

/-- Last path component: after `pathlib`, the part of the path that
follows the final slash. -/
def lastComp (s : List Char) : List Char :=
  (s.reverse.takeWhile (fun c => c != '/')).reverse

/-- The suffix of a file name, after `pathlib.PurePath.suffix`: the part
from the last dot on, empty when there is no dot, when the only dot
leads the name, or when the name ends in the dot. -/
def suffixOf (name : List Char) : List Char :=
  let bef := name.reverse.takeWhile (fun c => c != '.')
  match name.reverse.dropWhile (fun c => c != '.') with
  | [] => []
  | _ :: rest => if bef.isEmpty || rest.isEmpty then [] else '.' :: bef.reverse

/-- The stem of a file name, after `pathlib.PurePath.stem`. -/
def stemOf (name : List Char) : List Char :=
  name.take (name.length - (suffixOf name).length)

/-- `Path(s).suffix.lower().lstrip('.')` on character lists. -/
def extOf (s : List Char) : List Char :=
  ((suffixOf (lastComp s)).map Char.toLower).dropWhile (fun c => c == '.')

/-- `Path(s).suffix.lower().lstrip('.')`, the extension used for whitelist
checks in `handle_conversion` and `ConversionService.validate_file`. -/
def fileExt (s : String) : String :=
  String.mk (extOf s.data)

/-- `Path(s).stem` on strings. -/
def fileStem (s : String) : String :=
  String.mk (stemOf (lastComp s.data))

/- ### ConversionService pieces used by the routes -/

/-- `ConversionService.generate_unique_filename`: stem, underscore, a short
random id (a parameter here), a dot, the new extension. -/
def generate_unique_filename (original : String) (newExt : String) (uid8 : String) : String :=
  fileStem original ++ "_" ++ uid8 ++ "." ++ newExt

/-- Path where `ConversionService.save_uploaded_file` stores the upload for a
job: the conversion directory, then `id_originalname`. -/
def savePath (jobId fname : String) : String :=
  "/tmp/conversions/" ++ jobId ++ "_" ++ fname

/-- `ConversionService.cleanup_file`: best-effort removal, errors swallowed. -/
def cleanup_file (fs : Fs) (p : String) : Fs :=
  fsDel fs p

/-- `ConversionService.validate_file`: extension whitelist, then the 50 MB
getsize ceiling, then an existence re-check; any raised error is caught and
reported as a validation failure. -/
def validate_file (fs : Fs) (file_path : String) (allowed : List String) : Bool × String :=
  let ext := fileExt file_path
  if ext ∈ allowed then
    match fs file_path with
    | none => (false, "File validation error: No such file or directory")
    | some size =>
      if size > 50 * 1024 * 1024 then (false, "File size exceeds 50MB limit")
      else if (fs file_path).isSome then (true, "Valid file")
      else (false, "File not found")
  else
    (false, "Invalid file type. Allowed: " ++ String.intercalate ", " allowed)

/- ### The background task process_conversion -/

/-- What the external converter capability does when invoked. -/
inductive ConvOutcome
  | success
  | failure
  | raises (msg : String)
deriving DecidableEq, Repr

/-- One invocation of the converter capability: its reported outcome and the
filesystem it leaves behind (it may write the output file or anything else). -/
structure ConverterBehavior where
  outcome : ConvOutcome
  fsAfter : Fs

/-- The converter call as seen by the try block: a boolean or a raised error. -/
def runOutcome : ConvOutcome → Except String Bool
  | ConvOutcome.success => Except.ok true
  | ConvOutcome.failure => Except.ok false
  | ConvOutcome.raises m => Except.error m

/-- The if/elif dispatch in `process_conversion` lines 43-52: true exactly for
the five (from_format, to_format) pairs that invoke a converter. -/
def dispatch (ff tf : String) : Bool :=
  (ff == "word" && tf == "pdf") || (ff == "pdf" && tf == "word") ||
    (ff == "txt" && tf == "pdf") || (ff == "image" && tf == "pdf") ||
    (ff == "excel" && tf == "pdf")

/-- The filesystem after the dispatch block of `process_conversion`: changed
by the converter when one was invoked, untouched otherwise. -/
def convFs (beh : ConverterBehavior) (fs0 : Fs) (job1 : ConversionJob) : Fs :=
  if dispatch job1.from_format job1.to_format then beh.fsAfter else fs0

/-- `round(x, 2)`: the value rounded to two decimal places. -/
def round2 (q : ℚ) : ℚ :=
  ((round (q * 100) : ℤ) : ℚ) / 100

/-- Observable events of the background task: a write-back of a record into
`conversion_jobs`, or the invocation of the converter capability. -/
inductive PEvent
  | writeback (j : ConversionJob)
  | invoke
deriving DecidableEq, Repr

/-- Result of one run of `process_conversion`: filesystem, registry, the final
job record, and the ordered trace of write-backs and the converter call. -/
structure ProcResult where
  fs : Fs
  jobs : Registry
  job : ConversionJob
  trace : List PEvent

/-- The try block of `process_conversion` after the PROCESSING write-back:
dispatch to the converter, then the terminal status update.  Python
evaluates `success and os.path.exists(...)` left to right, so the exists
probe runs only on reported success; probing a `None` path raises, which the
enclosing except arm later turns into FAILED. -/
def tryBlock (startT tDone : ℚ) (beh : ConverterBehavior) (fs0 : Fs)
    (job1 : ConversionJob) : Except String ConversionJob :=
  let invoked := dispatch job1.from_format job1.to_format
  let fs1 := convFs beh fs0 job1
  match (if invoked then runOutcome beh.outcome else Except.ok false) with
  | Except.error m => Except.error m
  | Except.ok success =>
    if success then
      match job1.converted_file_path with
      | none => Except.error "argument should be a str or an os.PathLike object"
      | some outPath =>
        if (fs1 outPath).isSome then
          Except.ok { job1 with
            status := ConversionStatus.completed,
            converted_file_size := some ((fs1 outPath).getD 0),
            conversion_time := some (round2 (tDone - startT)),
            download_url := some ("/api/download/" ++ job1.id) }
        else
          Except.ok { job1 with
            status := ConversionStatus.failed,
            error_message := some "Conversion failed" }
    else
      Except.ok { job1 with
        status := ConversionStatus.failed,
        error_message := some "Conversion failed" }

/-- The record the try/except of `process_conversion` leaves behind: the try
block's result, or, when it raised, the except arm's FAILED update of the
record as it stood at the raise (no terminal field had been touched yet). -/
def procJobT (startT tDone : ℚ) (beh : ConverterBehavior) (fs0 : Fs)
    (job1 : ConversionJob) : ConversionJob :=
  match tryBlock startT tDone beh fs0 job1 with
  | Except.ok j => j
  | Except.error m =>
    { job1 with
      status := ConversionStatus.failed,
      error_message := some ("Conversion error: " ++ m) }

/-- `process_conversion` (src/routes/conversion.py lines 32-70).  `startT` is
the `time.time()` taken at entry, `tDone` the one taken when computing
`conversion_time`, `tFin` the one taken in the finally block. -/
def process_conversion (startT tDone tFin : ℚ) (beh : ConverterBehavior)
    (fs0 : Fs) (jobs0 : Registry) (job0 : ConversionJob) : ProcResult :=
  let job1 : ConversionJob := { job0 with status := ConversionStatus.processing }
  let jobs1 := regPut jobs0 job1.id job1
  let invoked := dispatch job1.from_format job1.to_format
  let fs1 := convFs beh fs0 job1
  let jobF : ConversionJob :=
    { procJobT startT tDone beh fs0 job1 with completed_at := some tFin }
  { fs := fs1,
    jobs := regPut jobs1 jobF.id jobF,
    job := jobF,
    trace := PEvent.writeback job1 ::
      ((if invoked then [PEvent.invoke] else []) ++ [PEvent.writeback jobF]) }

/-- The statuses carried by the write-back events of a trace, in order. -/
def wbStatuses : List PEvent → List ConversionStatus
  | [] => []
  | PEvent.writeback j :: es => j.status :: wbStatuses es
  | PEvent.invoke :: es => wbStatuses es

/- ### The submission handler handle_conversion -/

/-- An uploaded file: its declared filename and the number of bytes its
stream yields when saved. -/
structure UploadFile where
  filename : String
  size : Nat
deriving DecidableEq, Repr

/-- Immediate response of a successful submission, after `ConversionResponse`. -/
structure ConversionResponse where
  success : Bool
  job_id : String
  original_filename : String
  converted_filename : String
  file_size : Nat
  download_url : String
  message : String
deriving DecidableEq, Repr

/-- Result of one call to `handle_conversion`: filesystem, registry, the
background task scheduled (if any) and the HTTP response. -/
structure HandleResult where
  fs : Fs
  jobs : Registry
  scheduled : Option ConversionJob
  response : Result ConversionResponse

/-- The job record a successful submission stores and schedules: the
`ConversionJob(...)` literal of `handle_conversion`, with `file_path` and
`file_size` filled in after the save (getsize of the fresh save returns the
byte count of the stream) and `converted_file_path` set under the conversion
directory. -/
def newJob (jobId uid8 : String) (now : ℚ) (file : UploadFile) (ff tf : String) :
    ConversionJob :=
  { id := jobId,
    original_filename := file.filename,
    converted_filename :=
      generate_unique_filename file.filename (if tf = "word" then "docx" else tf) uid8,
    from_format := ff,
    to_format := tf,
    status := ConversionStatus.pending,
    file_size := file.size,
    converted_file_size := none,
    conversion_time := none,
    created_at := now,
    completed_at := none,
    error_message := none,
    download_url := none,
    file_path := some (savePath jobId file.filename),
    converted_file_path := some ("/tmp/conversions/" ++
      generate_unique_filename file.filename (if tf = "word" then "docx" else tf) uid8) }

/-- `handle_conversion` (src/routes/conversion.py lines 137-203).  `jobId` is
the uuid4 the pydantic default factory assigns, `uid8` the random suffix used
for the converted filename, `now` the creation timestamp.  The record is
built in stages in the source (sizes and paths are filled in after the
save); no stage before the final one is stored or observable, so the model
uses the final record `newJob` directly. -/
def handle_conversion (jobId uid8 : String) (now : ℚ) (file : UploadFile)
    (ct : ConversionFormat) (ff tf : String) (fs : Fs) (jobs : Registry) : HandleResult :=
  let allowed := ALLOWED_FORMATS ct
  if fileExt file.filename ∈ allowed then
    let path := savePath jobId file.filename
    let fs1 := fsPut fs path file.size
    let job2 := newJob jobId uid8 now file ff tf
    let v := validate_file fs1 path allowed
    if v.1 then
      { fs := fs1,
        jobs := regPut jobs job2.id job2,
        scheduled := some job2,
        response := Result.ok {
          success := true,
          job_id := job2.id,
          original_filename := job2.original_filename,
          converted_filename := job2.converted_filename,
          file_size := job2.file_size,
          download_url := "/api/download/" ++ job2.id,
          message := "Conversion started successfully" } }
    else
      { fs := cleanup_file fs1 path,
        jobs := jobs,
        scheduled := none,
        response := Result.err ⟨400, v.2⟩ }
  else
    { fs := fs,
      jobs := jobs,
      scheduled := none,
      response := Result.err
        ⟨400, "Invalid file type. Supported formats: " ++ String.intercalate ", " allowed⟩ }

/- ### Status, download, cleanup endpoints -/

/-- Body of the status endpoint response. -/
structure StatusResult where
  job_id : String
  status : String
  progress : Nat
  original_filename : String
  converted_filename : String
  conversion_time : Option ℚ
  error_message : Option String
  download_url : Option String
deriving DecidableEq, Repr

/-- `get_conversion_status` (src/routes/conversion.py lines 205-223). -/
def get_conversion_status (jobs : Registry) (job_id : String) : Result StatusResult :=
  match regGet jobs job_id with
  | none => Result.err ⟨404, "Conversion job not found"⟩
  | some job =>
    Result.ok {
      job_id := job.id,
      status := statusValue job.status,
      progress :=
        if job.status = ConversionStatus.completed then 100
        else if job.status = ConversionStatus.processing then 50
        else 0,
      original_filename := job.original_filename,
      converted_filename := job.converted_filename,
      conversion_time := job.conversion_time,
      error_message := job.error_message,
      download_url :=
        if job.status = ConversionStatus.completed then job.download_url else none }

/-- The file stream a successful download returns, after fastapi `FileResponse`. -/
structure FileResp where
  path : String
  filename : String
  media_type : String
deriving DecidableEq, Repr

/-- `download_converted_file` (src/routes/conversion.py lines 225-243).  A
COMPLETED record always carries a converted path; were it `None`, the
`os.path.exists` probe would raise out of the handler, surfacing as a 500. -/
def download_converted_file (fs : Fs) (jobs : Registry) (job_id : String) : Result FileResp :=
  match regGet jobs job_id with
  | none => Result.err ⟨404, "Conversion job not found"⟩
  | some job =>
    if job.status = ConversionStatus.completed then
      match job.converted_file_path with
      | none => Result.err ⟨500, "Internal Server Error"⟩
      | some p =>
        if (fs p).isSome then
          Result.ok { path := p, filename := job.converted_filename,
                      media_type := "application/octet-stream" }
        else
          Result.err ⟨404, "Converted file not found"⟩
    else
      Result.err ⟨400, "Conversion not completed yet"⟩

/-- Python truthiness of an optional string, for `if job.file_path:`. -/
def truthy : Option String → Bool
  | none => false
  | some s => s != ""

/-- Result of the cleanup endpoint: filesystem, registry, response. -/
structure CleanupResult where
  fs : Fs
  jobs : Registry
  response : Result String

/-- `cleanup_conversion_files` (src/routes/conversion.py lines 245-262). -/
def cleanup_conversion_files (fs : Fs) (jobs : Registry) (job_id : String) : CleanupResult :=
  match regGet jobs job_id with
  | none => { fs := fs, jobs := jobs, response := Result.err ⟨404, "Conversion job not found"⟩ }
  | some job =>
    let fs1 := if truthy job.file_path then cleanup_file fs (job.file_path.getD "") else fs
    let fs2 := if truthy job.converted_file_path then
        cleanup_file fs1 (job.converted_file_path.getD "") else fs1
    { fs := fs2,
      jobs := regDel jobs job_id,
      response := Result.ok "Files cleaned up successfully" }

/- ### Whole-system steps -/

/-- State of the whole service process: the filesystem, the `conversion_jobs`
dict, and the background tasks scheduled but not yet run. -/
structure Sys where
  fs : Fs
  jobs : Registry
  tasks : List ConversionJob

/-- Effect of one submission request on the system state: the scheduled
background task, if any, joins the queue. -/
def applyHandle (s : Sys) (jobId uid8 : String) (now : ℚ) (file : UploadFile)
    (ct : ConversionFormat) (ff tf : String) : Sys :=
  let r := handle_conversion jobId uid8 now file ct ff tf s.fs s.jobs
  { fs := r.fs, jobs := r.jobs, tasks := s.tasks ++ r.scheduled.toList }

/-- Effect of running one scheduled background task. -/
def applyProcess (s : Sys) (job : ConversionJob) (startT tDone tFin : ℚ)
    (beh : ConverterBehavior) : Sys :=
  let p := process_conversion startT tDone tFin beh s.fs s.jobs job
  { fs := p.fs, jobs := p.jobs, tasks := s.tasks.erase job }

/-- Effect of one cleanup request. -/
def applyCleanup (s : Sys) (id : String) : Sys :=
  let c := cleanup_conversion_files s.fs s.jobs id
  { fs := c.fs, jobs := c.jobs, tasks := s.tasks }

/-- One step of the service: a submission, a scheduled background task
running, or a cleanup request.  Status and download requests read but
never write, so they are not steps. -/
inductive Step : Sys → Sys → Prop
  | handle (s : Sys) (jobId uid8 : String) (now : ℚ) (file : UploadFile)
      (ct : ConversionFormat) (ff tf : String) :
      Step s (applyHandle s jobId uid8 now file ct ff tf)
  | process (s : Sys) (job : ConversionJob) (startT tDone tFin : ℚ)
      (beh : ConverterBehavior) (h : job ∈ s.tasks) :
      Step s (applyProcess s job startT tDone tFin beh)
  | cleanup (s : Sys) (id : String) :
      Step s (applyCleanup s id)

/-- States reachable from a fresh process: empty registry, no queued tasks,
any filesystem contents. -/
inductive Reachable : Sys → Prop
  | init (fs : Fs) : Reachable { fs := fs, jobs := [], tasks := [] }
  | step {s t : Sys} : Reachable s → Step s t → Reachable t

/-- System invariant: every registered record carries a download URL exactly
when it is COMPLETED, and a record still waiting in the task queue carries
none (the handler never sets `download_url` on the stored record). -/
def SysInv (s : Sys) : Prop :=
  (∀ id j, regGet s.jobs id = some j →
    (j.download_url.isSome = true ↔ j.status = ConversionStatus.completed)) ∧
  (∀ j ∈ s.tasks, j.download_url = none)

/- ### Concrete data for examples -/

/-- The empty filesystem. -/
def fsEmpty : Fs := fun _ => none

/-- A record with every optional field empty, used only as a `getD` default. -/
def job0Default : ConversionJob := {
  id := "", original_filename := "", converted_filename := "", from_format := "",
  to_format := "", status := ConversionStatus.pending, file_size := 0,
  converted_file_size := none, conversion_time := none, created_at := 0,
  completed_at := none, error_message := none, download_url := none,
  file_path := none, converted_file_path := none }

/-- A ten byte text upload. -/
def sampleUpload : UploadFile := { filename := "notes.txt", size := 10 }

/-- A concrete txt-to-pdf submission against a fresh process. -/
def sampleHandle : HandleResult :=
  handle_conversion "job-1" "ab12cd34" 0 sampleUpload ConversionFormat.txt_to_pdf
    "txt" "pdf" fsEmpty []

/-- The job record the sample submission schedules. -/
def sampleJob : ConversionJob := sampleHandle.scheduled.getD job0Default

/-- The initial system state over the empty filesystem. -/
def initSys : Sys := { fs := fsEmpty, jobs := [], tasks := [] }

/-- The system state right after the sample submission. -/
def sampleSys : Sys :=
  applyHandle initSys "job-1" "ab12cd34" 0 sampleUpload ConversionFormat.txt_to_pdf "txt" "pdf"

/-- A converter run that reports success and leaves an 842 byte output file
at the sample job's converted path. -/
def behOk : ConverterBehavior :=
  { outcome := ConvOutcome.success,
    fsAfter := fsPut fsEmpty "/tmp/conversions/notes_ab12cd34.pdf" 842 }

/-- A converter run that reports success but leaves a zero byte output file. -/
def behZero : ConverterBehavior :=
  { outcome := ConvOutcome.success,
    fsAfter := fsPut fsEmpty "/tmp/conversions/notes_ab12cd34.pdf" 0 }

/-- A converter run that reports failure. -/
def behFail : ConverterBehavior := { outcome := ConvOutcome.failure, fsAfter := fsEmpty }

/-- A converter run that raises. -/
def behRaise : ConverterBehavior :=
  { outcome := ConvOutcome.raises "boom", fsAfter := fsEmpty }

/-- Cleanup of the sample job immediately after submission, before its
background task has run. -/
def earlyClean : CleanupResult :=
  cleanup_conversion_files sampleHandle.fs sampleHandle.jobs "job-1"

/-- The sample job's background task running after that early cleanup. -/
def lateProc : ProcResult :=
  process_conversion 0 1 1 behOk earlyClean.fs earlyClean.jobs sampleJob

end ConvCore

namespace ConvCore

/- ### Registry and filesystem lemmas -/

lemma regGet_regPut (r : Registry) (id : String) (v : ConversionJob) (id' : String) :
    regGet (regPut r id v) id' = if id = id' then some v else regGet r id' := rfl

lemma regGet_regPut_self (r : Registry) (id : String) (v : ConversionJob) :
    regGet (regPut r id v) id = some v := by
  rw [regGet_regPut, if_pos rfl]

lemma regGet_regDel (r : Registry) (id id' : String) :
    regGet (regDel r id) id' = if id' = id then none else regGet r id' := by
  induction r with
  | nil =>
    simp only [regDel, List.filter_nil, regGet]
    split <;> rfl
  | cons kv r ih =>
    obtain ⟨k, v⟩ := kv
    by_cases hk : k = id
    · have hfil : regDel ((k, v) :: r) id = regDel r id := by
        simp [regDel, List.filter_cons, hk]
      rw [hfil, ih]
      simp only [regGet]
      by_cases h' : id' = id
      · rw [if_pos h', if_pos h']
      · have hki : ¬ k = id' := fun hh => h' (hh.symm.trans hk)
        rw [if_neg h', if_neg h', if_neg hki]
    · have hfil : regDel ((k, v) :: r) id = (k, v) :: regDel r id := by
        simp [regDel, List.filter_cons, bne_iff_ne, hk]
      rw [hfil]
      simp only [regGet]
      by_cases h' : k = id'
      · have hid : ¬ id' = id := fun hh => hk (h'.trans hh)
        rw [if_pos h', if_neg hid, if_pos h']
      · rw [if_neg h', ih]
        by_cases hid : id' = id
        · rw [if_pos hid, if_pos hid]
        · rw [if_neg hid, if_neg hid, if_neg h']

lemma fsPut_self (fs : Fs) (p : String) (n : Nat) : fsPut fs p n p = some n := by
  simp [fsPut]

lemma fsDel_self (fs : Fs) (p : String) : fsDel fs p p = none := by
  simp [fsDel]

/- ### takeWhile / dropWhile on appended lists -/

lemma takeWhile_all {α : Type} (p : α → Bool) (l : List α) (h : ∀ x ∈ l, p x = true) :
    l.takeWhile p = l := by
  induction l with
  | nil => rfl
  | cons a t ih =>
    rw [List.takeWhile_cons, if_pos (h a (by simp)), ih (fun x hx => h x (by simp [hx]))]

lemma takeWhile_append_all {α : Type} (p : α → Bool) (l₁ l₂ : List α)
    (h : ∀ x ∈ l₁, p x = true) :
    (l₁ ++ l₂).takeWhile p = l₁ ++ l₂.takeWhile p := by
  induction l₁ with
  | nil => simp
  | cons a t ih =>
    rw [List.cons_append, List.takeWhile_cons, if_pos (h a (by simp)),
      ih (fun x hx => h x (by simp [hx])), List.cons_append]

lemma takeWhile_append_stop {α : Type} (p : α → Bool) (l₁ l₂ : List α)
    (h : l₁.dropWhile p ≠ []) :
    (l₁ ++ l₂).takeWhile p = l₁.takeWhile p := by
  induction l₁ with
  | nil => simp [List.dropWhile] at h
  | cons a t ih =>
    by_cases ha : p a = true
    · rw [List.dropWhile_cons, if_pos ha] at h
      rw [List.cons_append, List.takeWhile_cons, if_pos ha, List.takeWhile_cons, if_pos ha, ih h]
    · rw [List.cons_append, List.takeWhile_cons, if_neg ha, List.takeWhile_cons, if_neg ha]

lemma dropWhile_append_stop {α : Type} (p : α → Bool) (l₁ l₂ : List α)
    (h : l₁.dropWhile p ≠ []) :
    (l₁ ++ l₂).dropWhile p = l₁.dropWhile p ++ l₂ := by
  induction l₁ with
  | nil => simp [List.dropWhile] at h
  | cons a t ih =>
    by_cases ha : p a = true
    · rw [List.dropWhile_cons, if_pos ha] at h
      rw [List.cons_append, List.dropWhile_cons, if_pos ha, List.dropWhile_cons, if_pos ha, ih h]
    · rw [List.cons_append, List.dropWhile_cons, if_neg ha, List.dropWhile_cons, if_neg ha,
        List.cons_append]

/- ### The saved upload keeps the original extension -/

lemma data_append (a b : String) : (a ++ b).data = a.data ++ b.data := by
  cases a; cases b; rfl

lemma lastComp_eq_self {s : List Char} (h : '/' ∉ s) : lastComp s = s := by
  unfold lastComp
  rw [takeWhile_all _ _ (fun x hx => by
    simp only [bne_iff_ne, ne_eq, decide_eq_true_eq]
    intro hq
    exact h (hq ▸ (List.mem_reverse.mp hx))), List.reverse_reverse]

lemma dropWhile_ne_nil_of_mem {l : List Char} {c : Char} (h : c ∈ l) :
    l.dropWhile (fun x => x != c) ≠ [] := by
  rw [Ne, List.dropWhile_eq_nil_iff]
  push_neg
  exact ⟨c, h, by simp⟩

lemma savePath_data (jid fn : String) :
    (savePath jid fn).data =
      ("/tmp/conversions/" : String).data ++ (jid.data ++ ('_' :: fn.data)) := by
  simp [savePath, data_append]

lemma lastComp_savePath_mem {jid fn : String} (hfn : '/' ∈ fn.data) :
    lastComp (savePath jid fn).data = lastComp fn.data := by
  unfold lastComp
  rw [savePath_data]
  have hrev : (("/tmp/conversions/" : String).data ++ (jid.data ++ ('_' :: fn.data))).reverse
      = fn.data.reverse ++ (('_' :: jid.data.reverse) ++
          ("/tmp/conversions/" : String).data.reverse) := by
    simp [List.reverse_append]
  rw [hrev, takeWhile_append_stop _ _ _
    (dropWhile_ne_nil_of_mem (List.mem_reverse.mpr hfn))]

lemma lastComp_savePath_not_mem {jid fn : String} (hjid : '/' ∉ jid.data)
    (hfn : '/' ∉ fn.data) :
    lastComp (savePath jid fn).data = (jid.data ++ ['_']) ++ fn.data := by
  unfold lastComp
  rw [savePath_data]
  have hrev : (("/tmp/conversions/" : String).data ++ (jid.data ++ ('_' :: fn.data))).reverse
      = fn.data.reverse ++ ('_' :: (jid.data.reverse ++
          ("/tmp/conversions/" : String).data.reverse)) := by
    simp [List.reverse_append]
  have hfn' : ∀ x ∈ fn.data.reverse, (x != '/') = true := fun x hx => by
    simp only [bne_iff_ne, ne_eq]
    intro hq
    exact hfn (hq ▸ List.mem_reverse.mp hx)
  have hjid' : ∀ x ∈ jid.data.reverse, (x != '/') = true := fun x hx => by
    simp only [bne_iff_ne, ne_eq]
    intro hq
    exact hjid (hq ▸ List.mem_reverse.mp hx)
  have hdir : ("/tmp/conversions/" : String).data.reverse.takeWhile (fun c => c != '/') = [] := by
    decide
  rw [hrev, takeWhile_append_all _ _ _ hfn', List.takeWhile_cons, if_pos (by simp),
    takeWhile_append_all _ _ _ hjid', hdir, List.append_nil]
  simp [List.reverse_append]

lemma suffixOf_wrap {pre fn : List Char} (hsuf : suffixOf fn ≠ []) :
    suffixOf ((pre ++ ['_']) ++ fn) = suffixOf fn := by
  have hrev : ((pre ++ ['_']) ++ fn).reverse = fn.reverse ++ ('_' :: pre.reverse) := by
    simp [List.reverse_append]
  rcases hD : fn.reverse.dropWhile (fun c => c != '.') with _ | ⟨d, rest⟩
  · exfalso
    apply hsuf
    simp [suffixOf, hD]
  · have hDne : fn.reverse.dropWhile (fun c => c != '.') ≠ [] := by
      rw [hD]
      simp
    have h1 : ((pre ++ ['_']) ++ fn).reverse.dropWhile (fun c => c != '.')
        = d :: (rest ++ '_' :: pre.reverse) := by
      rw [hrev, dropWhile_append_stop _ _ _ hDne, hD]
      rfl
    have h2 : ((pre ++ ['_']) ++ fn).reverse.takeWhile (fun c => c != '.')
        = fn.reverse.takeWhile (fun c => c != '.') := by
      rw [hrev, takeWhile_append_stop _ _ _ hDne]
    by_cases hc : ((fn.reverse.takeWhile (fun c => c != '.')).isEmpty || rest.isEmpty) = true
    · exfalso
      apply hsuf
      simp only [suffixOf, hD]
      rw [if_pos hc]
    · have hc' := Bool.or_eq_false_iff.mp (Bool.eq_false_iff.mpr hc)
      have hB : (fn.reverse.takeWhile (fun c => c != '.')).isEmpty = false := hc'.1
      have hR : rest.isEmpty = false := hc'.2
      have e1 : (rest ++ '_' :: pre.reverse).isEmpty = false := by
        simp
      simp only [suffixOf, h1, h2, hD]
      simp [hB, hR, e1]

lemma suffixOf_ne_nil_of_fileExt {s : String} (h : fileExt s ≠ "") :
    suffixOf (lastComp s.data) ≠ [] := by
  intro hnil
  apply h
  unfold fileExt extOf
  rw [hnil]
  rfl

lemma fileExt_savePath {jid fn : String} (hjid : '/' ∉ jid.data)
    (hext : fileExt fn ≠ "") :
    fileExt (savePath jid fn) = fileExt fn := by
  have hsuf := suffixOf_ne_nil_of_fileExt hext
  unfold fileExt extOf
  by_cases hfn : '/' ∈ fn.data
  · rw [lastComp_savePath_mem hfn]
  · rw [lastComp_savePath_not_mem hjid hfn]
    rw [lastComp_eq_self hfn] at hsuf ⊢
    rw [suffixOf_wrap hsuf]

end ConvCore

namespace ConvCore

/- ### One run of the background task, characterized -/

lemma tryBlock_ok {startT tDone : ℚ} {beh : ConverterBehavior} {fs0 : Fs}
    {job1 j : ConversionJob}
    (h : tryBlock startT tDone beh fs0 job1 = Except.ok j) :
    (∃ pth, job1.converted_file_path = some pth ∧
      (convFs beh fs0 job1 pth).isSome = true ∧
      j = { job1 with
        status := ConversionStatus.completed,
        converted_file_size := some ((convFs beh fs0 job1 pth).getD 0),
        conversion_time := some (round2 (tDone - startT)),
        download_url := some ("/api/download/" ++ job1.id) }) ∨
    j = { job1 with
        status := ConversionStatus.failed,
        error_message := some "Conversion failed" } := by
  simp only [tryBlock] at h
  split at h
  · simp at h
  · split at h
    · split at h
      · simp at h
      · rename_i outPath hp
        split at h
        · rename_i hex
          left
          exact ⟨outPath, hp, hex, (Except.ok.inj h).symm⟩
        · right
          exact (Except.ok.inj h).symm
    · right
      exact (Except.ok.inj h).symm

lemma procJobT_cases (startT tDone : ℚ) (beh : ConverterBehavior) (fs0 : Fs)
    (job1 : ConversionJob) :
    (∃ pth, job1.converted_file_path = some pth ∧
      (convFs beh fs0 job1 pth).isSome = true ∧
      procJobT startT tDone beh fs0 job1 = { job1 with
        status := ConversionStatus.completed,
        converted_file_size := some ((convFs beh fs0 job1 pth).getD 0),
        conversion_time := some (round2 (tDone - startT)),
        download_url := some ("/api/download/" ++ job1.id) }) ∨
    procJobT startT tDone beh fs0 job1 = { job1 with
      status := ConversionStatus.failed,
      error_message := some "Conversion failed" } ∨
    (∃ m, procJobT startT tDone beh fs0 job1 = { job1 with
      status := ConversionStatus.failed,
      error_message := some ("Conversion error: " ++ m) }) := by
  rcases htb : tryBlock startT tDone beh fs0 job1 with m | j
  · right
    right
    exact ⟨m, by simp [procJobT, htb]⟩
  · have hj : procJobT startT tDone beh fs0 job1 = j := by simp [procJobT, htb]
    rcases tryBlock_ok htb with ⟨pth, hp, hex, rfl⟩ | rfl
    · exact Or.inl ⟨pth, hp, hex, hj⟩
    · exact Or.inr (Or.inl hj)

lemma procJobT_id (startT tDone : ℚ) (beh : ConverterBehavior) (fs0 : Fs)
    (job1 : ConversionJob) :
    (procJobT startT tDone beh fs0 job1).id = job1.id := by
  rcases procJobT_cases startT tDone beh fs0 job1 with ⟨pth, _, _, h⟩ | h | ⟨m, h⟩ <;>
    rw [h]

lemma procJobT_terminal (startT tDone : ℚ) (beh : ConverterBehavior) (fs0 : Fs)
    (job1 : ConversionJob) :
    terminalStatus (procJobT startT tDone beh fs0 job1).status := by
  rcases procJobT_cases startT tDone beh fs0 job1 with ⟨pth, _, _, h⟩ | h | ⟨m, h⟩ <;>
    rw [h]
  · exact Or.inl rfl
  · exact Or.inr rfl
  · exact Or.inr rfl

lemma procJobT_failed_msg (startT tDone : ℚ) (beh : ConverterBehavior) (fs0 : Fs)
    (job1 : ConversionJob)
    (h : (procJobT startT tDone beh fs0 job1).status = ConversionStatus.failed) :
    (procJobT startT tDone beh fs0 job1).error_message.isSome = true := by
  rcases procJobT_cases startT tDone beh fs0 job1 with ⟨pth, _, _, he⟩ | he | ⟨m, he⟩ <;>
    rw [he] at h ⊢
  · simp at h
  · rfl
  · rfl

/-- The final job record of one run, the final filesystem and the final
registry, written out. -/
lemma process_conversion_parts (startT tDone tFin : ℚ) (beh : ConverterBehavior)
    (fs0 : Fs) (jobs0 : Registry) (job0 : ConversionJob) :
    (process_conversion startT tDone tFin beh fs0 jobs0 job0).job =
      { (procJobT startT tDone beh fs0 { job0 with status := ConversionStatus.processing }) with
        completed_at := some tFin } ∧
    (process_conversion startT tDone tFin beh fs0 jobs0 job0).fs =
      convFs beh fs0 { job0 with status := ConversionStatus.processing } ∧
    (process_conversion startT tDone tFin beh fs0 jobs0 job0).jobs =
      regPut (regPut jobs0 job0.id { job0 with status := ConversionStatus.processing })
        (process_conversion startT tDone tFin beh fs0 jobs0 job0).job.id
        (process_conversion startT tDone tFin beh fs0 jobs0 job0).job ∧
    (process_conversion startT tDone tFin beh fs0 jobs0 job0).trace =
      PEvent.writeback { job0 with status := ConversionStatus.processing } ::
        ((if dispatch job0.from_format job0.to_format then [PEvent.invoke] else []) ++
          [PEvent.writeback (process_conversion startT tDone tFin beh fs0 jobs0 job0).job]) :=
  ⟨rfl, rfl, rfl, rfl⟩

lemma process_job_id (startT tDone tFin : ℚ) (beh : ConverterBehavior)
    (fs0 : Fs) (jobs0 : Registry) (job0 : ConversionJob) :
    (process_conversion startT tDone tFin beh fs0 jobs0 job0).job.id = job0.id := by
  rw [(process_conversion_parts startT tDone tFin beh fs0 jobs0 job0).1]
  show (procJobT startT tDone beh fs0 { job0 with status := ConversionStatus.processing }).id
    = job0.id
  rw [procJobT_id]

lemma process_regGet (startT tDone tFin : ℚ) (beh : ConverterBehavior)
    (fs0 : Fs) (jobs0 : Registry) (job0 : ConversionJob) (id' : String) :
    regGet (process_conversion startT tDone tFin beh fs0 jobs0 job0).jobs id' =
      if job0.id = id'
      then some (process_conversion startT tDone tFin beh fs0 jobs0 job0).job
      else regGet jobs0 id' := by
  rw [(process_conversion_parts startT tDone tFin beh fs0 jobs0 job0).2.2.1,
    process_job_id, regGet_regPut, regGet_regPut]
  by_cases h : job0.id = id'
  · rw [if_pos h, if_pos h]
  · rw [if_neg h, if_neg h, if_neg h]

lemma process_job_terminal (startT tDone tFin : ℚ) (beh : ConverterBehavior)
    (fs0 : Fs) (jobs0 : Registry) (job0 : ConversionJob) :
    terminalStatus (process_conversion startT tDone tFin beh fs0 jobs0 job0).job.status := by
  rw [(process_conversion_parts startT tDone tFin beh fs0 jobs0 job0).1]
  exact procJobT_terminal ..

lemma process_job_completed_at (startT tDone tFin : ℚ) (beh : ConverterBehavior)
    (fs0 : Fs) (jobs0 : Registry) (job0 : ConversionJob) :
    (process_conversion startT tDone tFin beh fs0 jobs0 job0).job.completed_at = some tFin := by
  rw [(process_conversion_parts startT tDone tFin beh fs0 jobs0 job0).1]

end ConvCore

namespace ConvCore

/- ### One submission, characterized -/

lemma handle_invalid (jobId uid8 : String) (now : ℚ) (file : UploadFile)
    (ct : ConversionFormat) (ff tf : String) (fs : Fs) (jobs : Registry)
    (h : fileExt file.filename ∉ ALLOWED_FORMATS ct) :
    handle_conversion jobId uid8 now file ct ff tf fs jobs =
      { fs := fs, jobs := jobs, scheduled := none,
        response := Result.err ⟨400, "Invalid file type. Supported formats: " ++
          String.intercalate ", " (ALLOWED_FORMATS ct)⟩ } := by
  simp only [handle_conversion]
  rw [if_neg h]

lemma handle_valid_ok (jobId uid8 : String) (now : ℚ) (file : UploadFile)
    (ct : ConversionFormat) (ff tf : String) (fs : Fs) (jobs : Registry)
    (hok : fileExt file.filename ∈ ALLOWED_FORMATS ct)
    (hval : (validate_file (fsPut fs (savePath jobId file.filename) file.size)
      (savePath jobId file.filename) (ALLOWED_FORMATS ct)).1 = true) :
    handle_conversion jobId uid8 now file ct ff tf fs jobs =
      { fs := fsPut fs (savePath jobId file.filename) file.size,
        jobs := regPut jobs jobId (newJob jobId uid8 now file ff tf),
        scheduled := some (newJob jobId uid8 now file ff tf),
        response := Result.ok {
          success := true,
          job_id := jobId,
          original_filename := file.filename,
          converted_filename := (newJob jobId uid8 now file ff tf).converted_filename,
          file_size := file.size,
          download_url := "/api/download/" ++ jobId,
          message := "Conversion started successfully" } } := by
  simp only [handle_conversion]
  rw [if_pos hok, if_pos hval]
  rfl

lemma handle_valid_fail (jobId uid8 : String) (now : ℚ) (file : UploadFile)
    (ct : ConversionFormat) (ff tf : String) (fs : Fs) (jobs : Registry)
    (hok : fileExt file.filename ∈ ALLOWED_FORMATS ct)
    (hval : (validate_file (fsPut fs (savePath jobId file.filename) file.size)
      (savePath jobId file.filename) (ALLOWED_FORMATS ct)).1 = false) :
    handle_conversion jobId uid8 now file ct ff tf fs jobs =
      { fs := cleanup_file (fsPut fs (savePath jobId file.filename) file.size)
          (savePath jobId file.filename),
        jobs := jobs,
        scheduled := none,
        response := Result.err ⟨400,
          (validate_file (fsPut fs (savePath jobId file.filename) file.size)
            (savePath jobId file.filename) (ALLOWED_FORMATS ct)).2⟩ } := by
  simp only [handle_conversion]
  rw [if_pos hok, if_neg (by simp [hval])]

lemma handle_cases (jobId uid8 : String) (now : ℚ) (file : UploadFile)
    (ct : ConversionFormat) (ff tf : String) (fs : Fs) (jobs : Registry) :
    ((handle_conversion jobId uid8 now file ct ff tf fs jobs).jobs = jobs ∧
      (handle_conversion jobId uid8 now file ct ff tf fs jobs).scheduled = none) ∨
    ((handle_conversion jobId uid8 now file ct ff tf fs jobs).jobs =
        regPut jobs jobId (newJob jobId uid8 now file ff tf) ∧
      (handle_conversion jobId uid8 now file ct ff tf fs jobs).scheduled =
        some (newJob jobId uid8 now file ff tf)) := by
  by_cases hok : fileExt file.filename ∈ ALLOWED_FORMATS ct
  · cases hval : (validate_file (fsPut fs (savePath jobId file.filename) file.size)
      (savePath jobId file.filename) (ALLOWED_FORMATS ct)).1 with
    | false =>
      left
      rw [handle_valid_fail jobId uid8 now file ct ff tf fs jobs hok hval]
      exact ⟨rfl, rfl⟩
    | true =>
      right
      rw [handle_valid_ok jobId uid8 now file ct ff tf fs jobs hok hval]
      exact ⟨rfl, rfl⟩
  · left
    rw [handle_invalid jobId uid8 now file ct ff tf fs jobs hok]
    exact ⟨rfl, rfl⟩

lemma newJob_download_url (jobId uid8 : String) (now : ℚ) (file : UploadFile)
    (ff tf : String) : (newJob jobId uid8 now file ff tf).download_url = none := rfl

lemma newJob_status (jobId uid8 : String) (now : ℚ) (file : UploadFile)
    (ff tf : String) : (newJob jobId uid8 now file ff tf).status =
      ConversionStatus.pending := rfl

lemma allowed_ne_empty {ct : ConversionFormat} {e : String}
    (h : e ∈ ALLOWED_FORMATS ct) : e ≠ "" := by
  intro he
  subst he
  cases ct <;> exact absurd h (by decide)

/- ### Cleanup, characterized -/

lemma cleanup_found (fs : Fs) (jobs : Registry) (id : String) (job : ConversionJob)
    (h : regGet jobs id = some job) :
    cleanup_conversion_files fs jobs id =
      { fs := (if truthy job.converted_file_path then
            cleanup_file (if truthy job.file_path then
              cleanup_file fs (job.file_path.getD "") else fs)
              (job.converted_file_path.getD "")
          else (if truthy job.file_path then
            cleanup_file fs (job.file_path.getD "") else fs)),
        jobs := regDel jobs id,
        response := Result.ok "Files cleaned up successfully" } := by
  simp only [cleanup_conversion_files, h]

lemma cleanup_missing (fs : Fs) (jobs : Registry) (id : String)
    (h : regGet jobs id = none) :
    cleanup_conversion_files fs jobs id =
      { fs := fs, jobs := jobs,
        response := Result.err ⟨404, "Conversion job not found"⟩ } := by
  simp only [cleanup_conversion_files, h]

lemma cleanup_jobs_get (fs : Fs) (jobs : Registry) (id id' : String) :
    regGet (cleanup_conversion_files fs jobs id).jobs id' = none ∨
    regGet (cleanup_conversion_files fs jobs id).jobs id' = regGet jobs id' := by
  rcases h : regGet jobs id with _ | job
  · right
    rw [cleanup_missing fs jobs id h]
  · rw [cleanup_found fs jobs id job h]
    show regGet (regDel jobs id) id' = none ∨ regGet (regDel jobs id) id' = regGet jobs id'
    rw [regGet_regDel]
    by_cases h' : id' = id
    · left
      rw [if_pos h']
    · right
      rw [if_neg h']

/- ### The system invariant -/

lemma sysInv_init (fs : Fs) : SysInv { fs := fs, jobs := [], tasks := [] } := by
  constructor
  · intro id j h
    simp [regGet] at h
  · intro j h
    simp at h

lemma sysInv_step {s t : Sys} (hs : SysInv s) (st : Step s t) : SysInv t := by
  obtain ⟨hreg, htask⟩ := hs
  cases st with
  | handle jobId uid8 now file ct ff tf =>
    constructor
    · intro id j h
      have h' : regGet (handle_conversion jobId uid8 now file ct ff tf s.fs s.jobs).jobs id
          = some j := h
      rcases handle_cases jobId uid8 now file ct ff tf s.fs s.jobs with ⟨hj, _⟩ | ⟨hj, _⟩
      · rw [hj] at h'
        exact hreg id j h'
      · rw [hj, regGet_regPut] at h'
        by_cases hid : jobId = id
        · rw [if_pos hid] at h'
          cases h'
          simp [newJob_download_url, newJob_status]
        · rw [if_neg hid] at h'
          exact hreg id j h'
    · intro j hj
      have hj' : j ∈ s.tasks ++
          (handle_conversion jobId uid8 now file ct ff tf s.fs s.jobs).scheduled.toList := hj
      rcases List.mem_append.mp hj' with hmem | hmem
      · exact htask j hmem
      · rcases handle_cases jobId uid8 now file ct ff tf s.fs s.jobs with ⟨_, hsch⟩ | ⟨_, hsch⟩
        · rw [hsch] at hmem
          simp at hmem
        · rw [hsch] at hmem
          simp at hmem
          rw [hmem]
          exact newJob_download_url ..
  | process job startT tDone tFin beh hmem =>
    constructor
    · intro id j h
      have h' : regGet (process_conversion startT tDone tFin beh s.fs s.jobs job).jobs id
          = some j := h
      rw [process_regGet] at h'
      by_cases hid : job.id = id
      · rw [if_pos hid] at h'
        cases h'
        rw [(process_conversion_parts startT tDone tFin beh s.fs s.jobs job).1]
        have hurl : job.download_url = none := htask job hmem
        rcases procJobT_cases startT tDone beh s.fs
            { job with status := ConversionStatus.processing } with
          ⟨pth, _, _, he⟩ | he | ⟨m, he⟩ <;> rw [he] <;> simp [hurl]
      · rw [if_neg hid] at h'
        exact hreg id j h'
    · intro j hj
      have hj' : j ∈ s.tasks.erase job := hj
      exact htask j (List.mem_of_mem_erase hj')
  | cleanup id =>
    constructor
    · intro id' j h
      have h' : regGet (cleanup_conversion_files s.fs s.jobs id).jobs id' = some j := h
      rcases cleanup_jobs_get s.fs s.jobs id id' with hc | hc
      · rw [hc] at h'
        cases h'
      · rw [hc] at h'
        exact hreg id' j h'
    · intro j hj
      exact htask j hj

lemma reachable_sysInv {s : Sys} (h : Reachable s) : SysInv s := by
  induction h with
  | init fs => exact sysInv_init fs
  | step hr st ih => exact sysInv_step ih st

end ConvCore

namespace ConvCore

/-- C1: for every converter behaviour (success, failure, raise — with any
filesystem effects), `process_conversion` is a total state transformer: it
never propagates an error, the job it writes back is terminal (COMPLETED or
FAILED, never left PROCESSING), and whenever it is FAILED the error message
is non-null. -/
theorem C1_process_never_raises_always_terminal
    (startT tDone tFin : ℚ) (beh : ConverterBehavior) (fs0 : Fs)
    (jobs0 : Registry) (job0 : ConversionJob) :
    terminalStatus (process_conversion startT tDone tFin beh fs0 jobs0 job0).job.status ∧
    (process_conversion startT tDone tFin beh fs0 jobs0 job0).job.status ≠
      ConversionStatus.processing ∧
    regGet (process_conversion startT tDone tFin beh fs0 jobs0 job0).jobs job0.id =
      some (process_conversion startT tDone tFin beh fs0 jobs0 job0).job ∧
    ((process_conversion startT tDone tFin beh fs0 jobs0 job0).job.status =
        ConversionStatus.failed →
      (process_conversion startT tDone tFin beh fs0 jobs0 job0).job.error_message.isSome
        = true) := by
  refine ⟨process_job_terminal startT tDone tFin beh fs0 jobs0 job0, ?_, by
    rw [process_regGet, if_pos rfl], ?_⟩
  · rcases process_job_terminal startT tDone tFin beh fs0 jobs0 job0 with h | h <;>
      rw [h] <;> simp
  · intro hf
    rw [(process_conversion_parts startT tDone tFin beh fs0 jobs0 job0).1] at hf ⊢
    exact procJobT_failed_msg startT tDone beh fs0
      { job0 with status := ConversionStatus.processing } hf

theorem C1_witness :
    terminalStatus (process_conversion 0 1 1 behRaise fsEmpty [] sampleJob).job.status ∧
    (process_conversion 0 1 1 behRaise fsEmpty [] sampleJob).job.error_message.isSome
      = true :=
  ⟨(C1_process_never_raises_always_terminal 0 1 1 behRaise fsEmpty [] sampleJob).1,
   (C1_process_never_raises_always_terminal 0 1 1 behRaise fsEmpty [] sampleJob).2.2.2
     (by decide)⟩

/-- C2: starting from a PENDING record, the background task first writes the
record back as PROCESSING (before any converter invocation event), finishes
with exactly one terminal write-back, and the status sequence
PENDING, PROCESSING, terminal is strictly increasing in lifecycle rank — no
write moves the status backwards and nothing follows the terminal write. -/
theorem C2_processing_before_terminal (startT tDone tFin : ℚ) (beh : ConverterBehavior)
    (fs0 : Fs) (jobs0 : Registry) (job0 : ConversionJob)
    (h0 : job0.status = ConversionStatus.pending) :
    (process_conversion startT tDone tFin beh fs0 jobs0 job0).trace =
      PEvent.writeback { job0 with status := ConversionStatus.processing } ::
        ((if dispatch job0.from_format job0.to_format then [PEvent.invoke] else []) ++
          [PEvent.writeback (process_conversion startT tDone tFin beh fs0 jobs0 job0).job]) ∧
    terminalStatus (process_conversion startT tDone tFin beh fs0 jobs0 job0).job.status ∧
    List.Chain' (fun a b => statusRank a < statusRank b)
      (job0.status ::
        wbStatuses (process_conversion startT tDone tFin beh fs0 jobs0 job0).trace) ∧
    regGet (process_conversion startT tDone tFin beh fs0 jobs0 job0).jobs job0.id =
      some (process_conversion startT tDone tFin beh fs0 jobs0 job0).job := by
  refine ⟨(process_conversion_parts startT tDone tFin beh fs0 jobs0 job0).2.2.2,
    process_job_terminal startT tDone tFin beh fs0 jobs0 job0, ?_, by
      rw [process_regGet, if_pos rfl]⟩
  rw [(process_conversion_parts startT tDone tFin beh fs0 jobs0 job0).2.2.2]
  rcases process_job_terminal startT tDone tFin beh fs0 jobs0 job0 with ht | ht <;>
    cases hd : dispatch job0.from_format job0.to_format <;>
      simp [wbStatuses, h0, ht, statusRank, hd, List.chain'_cons]

theorem C2_witness :
    sampleJob.status = ConversionStatus.pending ∧
    List.Chain' (fun a b => statusRank a < statusRank b)
      (sampleJob.status ::
        wbStatuses (process_conversion 0 1 1 behOk fsEmpty [] sampleJob).trace) :=
  ⟨by decide,
   (C2_processing_before_terminal 0 1 1 behOk fsEmpty [] sampleJob (by decide)).2.2.1⟩

/-- C3 counterexample: a converter run that reports success and leaves a
zero-byte output file drives the sample job to COMPLETED with
`converted_file_size = 0`, so a COMPLETED job need not have
`converted_file_size` strictly greater than 0 as the claim states. -/
theorem C3_counterexample :
    (process_conversion 0 1 1 behZero fsEmpty [] sampleJob).job.status =
      ConversionStatus.completed ∧
    (process_conversion 0 1 1 behZero fsEmpty [] sampleJob).job.converted_file_size =
      some 0 ∧
    ¬ ∃ n, (process_conversion 0 1 1 behZero fsEmpty [] sampleJob).job.converted_file_size
      = some n ∧ 0 < n := by
  refine ⟨by decide, by decide, ?_⟩
  rintro ⟨n, hn, hpos⟩
  have h0 : (process_conversion 0 1 1 behZero fsEmpty [] sampleJob).job.converted_file_size
      = some 0 := by decide
  rw [h0] at hn
  obtain rfl := Option.some.inj hn
  exact Nat.lt_irrefl 0 hpos

/-- C3 (amended): whenever the background task leaves a job COMPLETED, its
`download_url` is non-null and `converted_file_size` is set to exactly the
size with which the converted artifact exists on disk at completion time —
but that size may be 0; the code never demands it be positive. -/
theorem C3_completed_metadata (startT tDone tFin : ℚ) (beh : ConverterBehavior)
    (fs0 : Fs) (jobs0 : Registry) (job0 : ConversionJob)
    (hc : (process_conversion startT tDone tFin beh fs0 jobs0 job0).job.status =
      ConversionStatus.completed) :
    (process_conversion startT tDone tFin beh fs0 jobs0 job0).job.download_url.isSome
      = true ∧
    ∃ pth n,
      (process_conversion startT tDone tFin beh fs0 jobs0 job0).job.converted_file_path
        = some pth ∧
      (process_conversion startT tDone tFin beh fs0 jobs0 job0).job.converted_file_size
        = some n ∧
      (process_conversion startT tDone tFin beh fs0 jobs0 job0).fs pth = some n := by
  rw [(process_conversion_parts startT tDone tFin beh fs0 jobs0 job0).1] at hc ⊢
  rw [(process_conversion_parts startT tDone tFin beh fs0 jobs0 job0).2.1]
  rcases procJobT_cases startT tDone beh fs0
      { job0 with status := ConversionStatus.processing } with
    ⟨pth, hp, hex, he⟩ | he | ⟨m, he⟩
  · obtain ⟨n, hn⟩ := Option.isSome_iff_exists.mp hex
    rw [he] at hc ⊢
    refine ⟨by simp, pth, n, ?_, ?_, hn⟩
    · simpa using hp
    · simp [hn]
  · rw [he] at hc
    simp at hc
  · rw [he] at hc
    simp at hc

theorem C3_completed_metadata_witness :
    (process_conversion 0 1 1 behOk fsEmpty [] sampleJob).job.status =
      ConversionStatus.completed ∧
    (process_conversion 0 1 1 behOk fsEmpty [] sampleJob).job.download_url.isSome
      = true :=
  ⟨by decide, (C3_completed_metadata 0 1 1 behOk fsEmpty [] sampleJob (by decide)).1⟩

/-- C5: with a converter dispatched for the job's format pair and a
converted path set, reported success plus an existing output file yields
COMPLETED with `converted_file_size` equal to the on-disk size,
`conversion_time = round(elapsed, 2)`, the download URL and `completed_at`
set; reported failure, a raise, or a missing output yields FAILED with an
error message and `completed_at` set. -/
theorem C5_terminal_update (startT tDone tFin : ℚ) (beh : ConverterBehavior)
    (fs0 : Fs) (jobs0 : Registry) (job0 : ConversionJob) (outPath : String)
    (hdisp : dispatch job0.from_format job0.to_format = true)
    (hpath : job0.converted_file_path = some outPath) :
    (beh.outcome = ConvOutcome.success → ∀ n, beh.fsAfter outPath = some n →
      ((process_conversion startT tDone tFin beh fs0 jobs0 job0).job.status =
          ConversionStatus.completed ∧
        (process_conversion startT tDone tFin beh fs0 jobs0 job0).job.converted_file_size
          = some n ∧
        (process_conversion startT tDone tFin beh fs0 jobs0 job0).job.conversion_time
          = some (round2 (tDone - startT)) ∧
        (process_conversion startT tDone tFin beh fs0 jobs0 job0).job.download_url
          = some ("/api/download/" ++ job0.id) ∧
        (process_conversion startT tDone tFin beh fs0 jobs0 job0).job.completed_at
          = some tFin)) ∧
    ((beh.outcome ≠ ConvOutcome.success ∨ beh.fsAfter outPath = none) →
      ((process_conversion startT tDone tFin beh fs0 jobs0 job0).job.status =
          ConversionStatus.failed ∧
        (process_conversion startT tDone tFin beh fs0 jobs0 job0).job.error_message.isSome
          = true ∧
        (process_conversion startT tDone tFin beh fs0 jobs0 job0).job.completed_at
          = some tFin)) := by
  have hdisp' : dispatch ({ job0 with status := ConversionStatus.processing } :
      ConversionJob).from_format
      ({ job0 with status := ConversionStatus.processing } : ConversionJob).to_format
      = true := by simpa using hdisp
  have hpath' : ({ job0 with status := ConversionStatus.processing } :
      ConversionJob).converted_file_path = some outPath := by simpa using hpath
  have hjob := (process_conversion_parts startT tDone tFin beh fs0 jobs0 job0).1
  constructor
  · intro hsucc n hn
    have hcomp : procJobT startT tDone beh fs0
        { job0 with status := ConversionStatus.processing } =
        { ({ job0 with status := ConversionStatus.processing } : ConversionJob) with
          status := ConversionStatus.completed,
          converted_file_size := some n,
          conversion_time := some (round2 (tDone - startT)),
          download_url := some ("/api/download/" ++ job0.id) } := by
      simp [procJobT, tryBlock, convFs, hdisp', hpath', hpath, hsucc, runOutcome, hn]
    rw [hjob, hcomp]
    refine ⟨rfl, rfl, rfl, rfl, rfl⟩
  · intro hother
    have hfail : (procJobT startT tDone beh fs0
          { job0 with status := ConversionStatus.processing }).status =
        ConversionStatus.failed := by
      rcases ho : beh.outcome with _ | _ | m
      · rcases hother with hne | hnone
        · exact absurd ho hne
        · simp [procJobT, tryBlock, convFs, hdisp', hpath', hpath, ho, runOutcome, hnone]
      · simp [procJobT, tryBlock, convFs, hdisp', hpath', hpath, ho, runOutcome]
      · simp [procJobT, tryBlock, convFs, hdisp', hpath', hpath, ho, runOutcome]
    refine ⟨?_, ?_, ?_⟩
    · rw [hjob]
      exact hfail
    · rw [hjob]
      exact procJobT_failed_msg startT tDone beh fs0
        { job0 with status := ConversionStatus.processing } hfail
    · rw [hjob]

theorem C5_witness :
    ((process_conversion 0 1 1 behOk fsEmpty [] sampleJob).job.status =
        ConversionStatus.completed ∧
      (process_conversion 0 1 1 behOk fsEmpty [] sampleJob).job.converted_file_size
        = some 842) ∧
    ((process_conversion 0 1 1 behFail fsEmpty [] sampleJob).job.status =
        ConversionStatus.failed ∧
      (process_conversion 0 1 1 behFail fsEmpty [] sampleJob).job.completed_at
        = some 1) := by
  constructor
  · have h := (C5_terminal_update 0 1 1 behOk fsEmpty [] sampleJob
      "/tmp/conversions/notes_ab12cd34.pdf" (by decide) (by decide)).1 rfl 842 (by decide)
    exact ⟨h.1, h.2.1⟩
  · have h := (C5_terminal_update 0 1 1 behFail fsEmpty [] sampleJob
      "/tmp/conversions/notes_ab12cd34.pdf" (by decide) (by decide)).2
      (Or.inl (by decide))
    exact ⟨h.1, h.2.2⟩

end ConvCore

namespace ConvCore

/-- C9: for every registered job, the status endpoint derives `progress`
solely from the job's status — 0 for PENDING, 50 for PROCESSING, 100 for
COMPLETED, 0 for FAILED — and a freshly submitted job, queried before its
background task runs, reports PENDING with progress 0. -/
theorem C9_progress_mapping :
    (∀ (jobs : Registry) (id : String) (job : ConversionJob),
      regGet jobs id = some job →
      get_conversion_status jobs id = Result.ok {
        job_id := job.id,
        status := statusValue job.status,
        progress := (match job.status with
          | ConversionStatus.pending => 0
          | ConversionStatus.processing => 50
          | ConversionStatus.completed => 100
          | ConversionStatus.failed => 0),
        original_filename := job.original_filename,
        converted_filename := job.converted_filename,
        conversion_time := job.conversion_time,
        error_message := job.error_message,
        download_url := if job.status = ConversionStatus.completed
          then job.download_url else none }) ∧
    (∀ (jobId uid8 : String) (now : ℚ) (file : UploadFile) (ct : ConversionFormat)
      (ff tf : String) (fs : Fs) (jobs : Registry) (job : ConversionJob),
      (handle_conversion jobId uid8 now file ct ff tf fs jobs).scheduled = some job →
      get_conversion_status
          (handle_conversion jobId uid8 now file ct ff tf fs jobs).jobs job.id =
        Result.ok {
          job_id := job.id,
          status := "pending",
          progress := 0,
          original_filename := job.original_filename,
          converted_filename := job.converted_filename,
          conversion_time := none,
          error_message := none,
          download_url := none }) := by
  constructor
  · intro jobs id job h
    cases hs : job.status <;> simp [get_conversion_status, h, hs]
  · intro jobId uid8 now file ct ff tf fs jobs job h
    rcases handle_cases jobId uid8 now file ct ff tf fs jobs with ⟨_, hsch⟩ | ⟨hjobs, hsch⟩
    · rw [hsch] at h
      cases h
    · rw [hsch] at h
      obtain rfl := Option.some.inj h
      have hg : regGet (handle_conversion jobId uid8 now file ct ff tf fs jobs).jobs
          jobId = some (newJob jobId uid8 now file ff tf) := by
        rw [hjobs]
        exact regGet_regPut_self jobs jobId (newJob jobId uid8 now file ff tf)
      simp [get_conversion_status, hg, newJob, statusValue]

theorem C9_witness :
    sampleHandle.scheduled = some sampleJob ∧
    get_conversion_status sampleHandle.jobs sampleJob.id = Result.ok {
      job_id := sampleJob.id,
      status := "pending",
      progress := 0,
      original_filename := sampleJob.original_filename,
      converted_filename := sampleJob.converted_filename,
      conversion_time := none,
      error_message := none,
      download_url := none } :=
  ⟨by decide, C9_progress_mapping.2 "job-1" "ab12cd34" 0 sampleUpload
    ConversionFormat.txt_to_pdf "txt" "pdf" fsEmpty [] sampleJob (by decide)⟩

lemma get_status_some (jobs : Registry) (id : String) (job : ConversionJob)
    (h : regGet jobs id = some job) :
    get_conversion_status jobs id = Result.ok {
      job_id := job.id,
      status := statusValue job.status,
      progress := if job.status = ConversionStatus.completed then 100
        else if job.status = ConversionStatus.processing then 50 else 0,
      original_filename := job.original_filename,
      converted_filename := job.converted_filename,
      conversion_time := job.conversion_time,
      error_message := job.error_message,
      download_url := if job.status = ConversionStatus.completed then job.download_url
        else none } := by
  simp [get_conversion_status, h, statusValue]

/-- C6: in every reachable system state, a registered job's `download_url`
is non-null exactly when its status is COMPLETED, and the status endpoint
returns a null `download_url` for PENDING, PROCESSING and FAILED jobs and a
non-null one for COMPLETED jobs. -/
theorem C6_download_url_iff_completed (s : Sys) (hs : Reachable s)
    (id : String) (job : ConversionJob) (h : regGet s.jobs id = some job) :
    (job.download_url.isSome = true ↔ job.status = ConversionStatus.completed) ∧
    ∃ st, get_conversion_status s.jobs id = Result.ok st ∧
      (st.download_url.isSome = true ↔ job.status = ConversionStatus.completed) := by
  have hinv := (reachable_sysInv hs).1 id job h
  have hst := get_status_some s.jobs id job h
  refine ⟨hinv, ⟨_, hst, ?_⟩⟩
  by_cases hc : job.status = ConversionStatus.completed
  · simp [hc, hinv.mpr hc]
  · simp [hc]

end ConvCore

namespace ConvCore

theorem C6_witness :
    (sampleJob.download_url.isSome = true ↔
      sampleJob.status = ConversionStatus.completed) :=
  (C6_download_url_iff_completed sampleSys
    (Reachable.step (Reachable.init fsEmpty)
      (Step.handle initSys "job-1" "ab12cd34" 0 sampleUpload
        ConversionFormat.txt_to_pdf "txt" "pdf"))
    "job-1" sampleJob (by decide)).1

/-- C7: the download endpoint fails with 404 JobNotFound for an unknown id,
with 400 NotReady for every registered job whose status is not COMPLETED
(FAILED, PENDING and PROCESSING alike), with 404 FileMissing for a COMPLETED
job whose artifact is absent from disk, and otherwise streams the converted
file. -/
theorem C7_download_errors (fs : Fs) (jobs : Registry) (id : String) :
    (regGet jobs id = none →
      download_converted_file fs jobs id =
        Result.err ⟨404, "Conversion job not found"⟩) ∧
    (∀ job, regGet jobs id = some job → job.status ≠ ConversionStatus.completed →
      download_converted_file fs jobs id =
        Result.err ⟨400, "Conversion not completed yet"⟩) ∧
    (∀ job pth, regGet jobs id = some job → job.status = ConversionStatus.completed →
      job.converted_file_path = some pth → fs pth = none →
      download_converted_file fs jobs id =
        Result.err ⟨404, "Converted file not found"⟩) ∧
    (∀ job pth n, regGet jobs id = some job → job.status = ConversionStatus.completed →
      job.converted_file_path = some pth → fs pth = some n →
      download_converted_file fs jobs id =
        Result.ok { path := pth, filename := job.converted_filename,
                    media_type := "application/octet-stream" }) := by
  refine ⟨?_, ?_, ?_, ?_⟩
  · intro h
    simp [download_converted_file, h]
  · intro job hjob hne
    simp [download_converted_file, hjob, hne]
  · intro job pth hjob hc hp hmiss
    simp [download_converted_file, hjob, hc, hp, hmiss]
  · intro job pth n hjob hc hp hn
    simp [download_converted_file, hjob, hc, hp, hn]

theorem C7_witness :
    (download_converted_file fsEmpty [] "nope" =
      Result.err ⟨404, "Conversion job not found"⟩) ∧
    (download_converted_file fsEmpty (regPut [] "job-1" sampleJob) "job-1" =
      Result.err ⟨400, "Conversion not completed yet"⟩) ∧
    (download_converted_file fsEmpty
        (regPut [] "job-1" { sampleJob with status := ConversionStatus.completed })
        "job-1" =
      Result.err ⟨404, "Converted file not found"⟩) ∧
    (download_converted_file (fsPut fsEmpty "/tmp/conversions/notes_ab12cd34.pdf" 842)
        (regPut [] "job-1" { sampleJob with status := ConversionStatus.completed })
        "job-1" =
      Result.ok { path := "/tmp/conversions/notes_ab12cd34.pdf",
                  filename := "notes_ab12cd34.pdf",
                  media_type := "application/octet-stream" }) := by
  refine ⟨?_, ?_, ?_, ?_⟩
  · exact (C7_download_errors fsEmpty [] "nope").1 (by decide)
  · exact (C7_download_errors fsEmpty (regPut [] "job-1" sampleJob) "job-1").2.1
      sampleJob (by decide) (by decide)
  · exact (C7_download_errors fsEmpty
      (regPut [] "job-1" { sampleJob with status := ConversionStatus.completed })
      "job-1").2.2.1 { sampleJob with status := ConversionStatus.completed }
      "/tmp/conversions/notes_ab12cd34.pdf" (by decide) (by decide) (by decide) (by decide)
  · have h := (C7_download_errors (fsPut fsEmpty "/tmp/conversions/notes_ab12cd34.pdf" 842)
      (regPut [] "job-1" { sampleJob with status := ConversionStatus.completed })
      "job-1").2.2.2 { sampleJob with status := ConversionStatus.completed }
      "/tmp/conversions/notes_ab12cd34.pdf" 842 (by decide) (by decide) (by decide)
      (by decide)
    rw [h]
    decide

end ConvCore

namespace ConvCore

/-- C8 (amended): for an id in the registry, cleanup succeeds, deletes the
job's input and converted files, and removes the entry, so that — absent an
intervening run of the job's still-queued background task — any subsequent
status, download, or second cleanup for that id fails with 404 JobNotFound;
for an id not in the registry, all three operations fail with 404. -/
theorem C8_cleanup_removes_then_404 (fs : Fs) (jobs : Registry) (id : String) :
    (∀ job, regGet jobs id = some job →
      (cleanup_conversion_files fs jobs id).response =
        Result.ok "Files cleaned up successfully" ∧
      regGet (cleanup_conversion_files fs jobs id).jobs id = none ∧
      (∀ p, job.file_path = some p → p ≠ "" →
        (cleanup_conversion_files fs jobs id).fs p = none) ∧
      (∀ p, job.converted_file_path = some p → p ≠ "" →
        (cleanup_conversion_files fs jobs id).fs p = none) ∧
      get_conversion_status (cleanup_conversion_files fs jobs id).jobs id =
        Result.err ⟨404, "Conversion job not found"⟩ ∧
      download_converted_file (cleanup_conversion_files fs jobs id).fs
        (cleanup_conversion_files fs jobs id).jobs id =
        Result.err ⟨404, "Conversion job not found"⟩ ∧
      (cleanup_conversion_files (cleanup_conversion_files fs jobs id).fs
        (cleanup_conversion_files fs jobs id).jobs id).response =
        Result.err ⟨404, "Conversion job not found"⟩) ∧
    (regGet jobs id = none →
      (cleanup_conversion_files fs jobs id).response =
        Result.err ⟨404, "Conversion job not found"⟩ ∧
      get_conversion_status jobs id = Result.err ⟨404, "Conversion job not found"⟩ ∧
      download_converted_file fs jobs id =
        Result.err ⟨404, "Conversion job not found"⟩) := by
  constructor
  · intro job hjob
    have hnone : regGet (cleanup_conversion_files fs jobs id).jobs id = none := by
      rw [cleanup_found fs jobs id job hjob]
      show regGet (regDel jobs id) id = none
      rw [regGet_regDel, if_pos rfl]
    refine ⟨by rw [cleanup_found fs jobs id job hjob], hnone, ?_, ?_, ?_, ?_, ?_⟩
    · intro p hp hne
      have hfp : truthy job.file_path = true := by
        rw [hp]
        simp [truthy, bne_iff_ne, hne]
      rw [cleanup_found fs jobs id job hjob]
      show (if truthy job.converted_file_path then
          cleanup_file (if truthy job.file_path then
            cleanup_file fs (job.file_path.getD "") else fs)
            (job.converted_file_path.getD "")
        else (if truthy job.file_path then
          cleanup_file fs (job.file_path.getD "") else fs)) p = none
      rw [hfp]
      by_cases hcv : truthy job.converted_file_path = true
      · rw [if_pos hcv]
        simp [cleanup_file, fsDel, hp]
      · rw [if_neg hcv]
        simp [cleanup_file, fsDel, hp]
    · intro p hp hne
      have hcv : truthy job.converted_file_path = true := by
        rw [hp]
        simp [truthy, bne_iff_ne, hne]
      rw [cleanup_found fs jobs id job hjob]
      show (if truthy job.converted_file_path then
          cleanup_file (if truthy job.file_path then
            cleanup_file fs (job.file_path.getD "") else fs)
            (job.converted_file_path.getD "")
        else (if truthy job.file_path then
          cleanup_file fs (job.file_path.getD "") else fs)) p = none
      rw [if_pos hcv]
      simp [cleanup_file, fsDel, hp]
    · simp [get_conversion_status, hnone]
    · simp [download_converted_file, hnone]
    · rw [cleanup_missing _ _ _ hnone]
  · intro h
    exact ⟨by rw [cleanup_missing fs jobs id h],
      by simp [get_conversion_status, h],
      by simp [download_converted_file, h]⟩

theorem C8_witness :
    regGet sampleHandle.jobs "job-1" = some sampleJob ∧
    earlyClean.response = Result.ok "Files cleaned up successfully" ∧
    regGet earlyClean.jobs "job-1" = none ∧
    get_conversion_status earlyClean.jobs "job-1" =
      Result.err ⟨404, "Conversion job not found"⟩ := by
  have h := (C8_cleanup_removes_then_404 sampleHandle.fs sampleHandle.jobs "job-1").1
    sampleJob (by decide)
  exact ⟨by decide, h.1, h.2.1, h.2.2.2.2.1⟩

/-- C8 counterexample: cleanup called while the sample job's background task
is still queued removes the entry, yet when the task then runs it re-inserts
the record (`conversion_jobs[job.id] = job` on lines 38 and 70), so a
subsequent status request for the cleaned-up id succeeds instead of failing
with JobNotFound. -/
theorem C8_counterexample :
    earlyClean.response = Result.ok "Files cleaned up successfully" ∧
    regGet earlyClean.jobs "job-1" = none ∧
    sampleJob ∈ sampleSys.tasks ∧
    resultOk (get_conversion_status lateProc.jobs "job-1") = true := by
  exact ⟨by decide, by decide, by decide, by decide⟩

end ConvCore

namespace ConvCore

/-- C4: validation is ordered and fail-fast.  A filename whose extension is
outside the whitelist is rejected synchronously with 400 before anything is
stored: the filesystem, registry and task queue are untouched.  A whitelisted
upload that exceeds 50 MiB once persisted is rejected with 400, its scratch
file is deleted, and again no registry entry is added and no background task
is scheduled. -/
theorem C4_validation_failfast (jobId uid8 : String) (now : ℚ) (file : UploadFile)
    (ct : ConversionFormat) (ff tf : String) (fs : Fs) (jobs : Registry) :
    (fileExt file.filename ∉ ALLOWED_FORMATS ct →
      ((handle_conversion jobId uid8 now file ct ff tf fs jobs).response =
          Result.err ⟨400, "Invalid file type. Supported formats: " ++
            String.intercalate ", " (ALLOWED_FORMATS ct)⟩ ∧
        (handle_conversion jobId uid8 now file ct ff tf fs jobs).jobs = jobs ∧
        (handle_conversion jobId uid8 now file ct ff tf fs jobs).scheduled = none ∧
        (handle_conversion jobId uid8 now file ct ff tf fs jobs).fs = fs)) ∧
    ('/' ∉ jobId.data → fileExt file.filename ∈ ALLOWED_FORMATS ct →
      file.size > 50 * 1024 * 1024 →
      ((handle_conversion jobId uid8 now file ct ff tf fs jobs).response =
          Result.err ⟨400, "File size exceeds 50MB limit"⟩ ∧
        (handle_conversion jobId uid8 now file ct ff tf fs jobs).jobs = jobs ∧
        (handle_conversion jobId uid8 now file ct ff tf fs jobs).scheduled = none ∧
        (handle_conversion jobId uid8 now file ct ff tf fs jobs).fs
          (savePath jobId file.filename) = none)) := by
  constructor
  · intro h
    rw [handle_invalid jobId uid8 now file ct ff tf fs jobs h]
    exact ⟨rfl, rfl, rfl, rfl⟩
  · intro hjid hok hbig
    have hextq : fileExt (savePath jobId file.filename) = fileExt file.filename :=
      fileExt_savePath hjid (allowed_ne_empty hok)
    have hv : validate_file (fsPut fs (savePath jobId file.filename) file.size)
        (savePath jobId file.filename) (ALLOWED_FORMATS ct) =
        (false, "File size exceeds 50MB limit") := by
      simp only [validate_file]
      rw [hextq, if_pos hok, fsPut_self]
      simp [hbig]
    rw [handle_valid_fail jobId uid8 now file ct ff tf fs jobs hok (by rw [hv])]
    refine ⟨by rw [hv], rfl, rfl, ?_⟩
    simp [cleanup_file, fsDel]

theorem C4_witness :
    (fileExt "evil.exe" ∉ ALLOWED_FORMATS ConversionFormat.image_to_pdf ∧
      (handle_conversion "job-3" "ab12cd34" 0 { filename := "evil.exe", size := 10 }
          ConversionFormat.image_to_pdf "image" "pdf" fsEmpty []).scheduled = none) ∧
    ('/' ∉ ("job-4" : String).data ∧
      fileExt "big.docx" ∈ ALLOWED_FORMATS ConversionFormat.word_to_pdf ∧
      (52428801 : Nat) > 50 * 1024 * 1024 ∧
      (handle_conversion "job-4" "ab12cd34" 0 { filename := "big.docx", size := 52428801 }
          ConversionFormat.word_to_pdf "word" "pdf" fsEmpty []).response =
        Result.err ⟨400, "File size exceeds 50MB limit"⟩) := by
  constructor
  · exact ⟨by decide,
      ((C4_validation_failfast "job-3" "ab12cd34" 0 { filename := "evil.exe", size := 10 }
        ConversionFormat.image_to_pdf "image" "pdf" fsEmpty []).1 (by decide)).2.2.1⟩
  · exact ⟨by decide, by decide, by decide,
      ((C4_validation_failfast "job-4" "ab12cd34" 0
          { filename := "big.docx", size := 52428801 }
          ConversionFormat.word_to_pdf "word" "pdf" fsEmpty []).2
        (by decide) (by decide) (by decide)).1⟩

/-- C10: the uploaded filename's extension is lower-cased before the
whitelist comparison: ".PNG" has extension "png", a filename differing from
a whitelisted extension only in letter case is accepted end to end by the
image-to-pdf submission handler, and whether the extension check passes
depends only on the lower-cased extension `fileExt`. -/
theorem C10_extension_case_insensitive :
    fileExt "photo.PNG" = "png" ∧
    fileExt "photo.PNG" = fileExt "photo.png" ∧
    resultOk (handle_conversion "job-9" "cafe0000" 0
      { filename := "photo.PNG", size := 10 }
      ConversionFormat.image_to_pdf "image" "pdf" fsEmpty []).response = true ∧
    (∀ (f1 f2 : String) (ct : ConversionFormat), fileExt f1 = fileExt f2 →
      (fileExt f1 ∈ ALLOWED_FORMATS ct ↔ fileExt f2 ∈ ALLOWED_FORMATS ct)) := by
  refine ⟨by decide, by decide, by decide, ?_⟩
  intro f1 f2 ct h
  rw [h]

theorem C10_witness :
    fileExt "scan.JPG" = fileExt "scan.jpg" ∧
    (fileExt "scan.JPG" ∈ ALLOWED_FORMATS ConversionFormat.image_to_pdf ↔
      fileExt "scan.jpg" ∈ ALLOWED_FORMATS ConversionFormat.image_to_pdf) :=
  ⟨by decide, C10_extension_case_insensitive.2.2.2 "scan.JPG" "scan.jpg"
    ConversionFormat.image_to_pdf (by decide)⟩

end ConvCore
